import Mathlib

/-!
# Verification of the AnnoMate annotation tool (draw_app.py)

Shallow embedding of the annotation engine of `draw_app.py`:

* the per-category mask extraction performed by `save` (lines 753-791),
  modelled on an explicit pixel grid;
* the screen-to-image coordinate transform of `_on_left_press` /
  `_on_left_move` (Python `int()` applied to a rational quotient);
* the stroke / history / navigation state machine
  (`_on_left_press`, `_on_left_move`, `_on_left_release`,
  `_record_history`, `undo`, `redo`, `clear_all`, `_set_zoom`,
  `_load_image`, `_update_pen_labels`, `save`, `_save_current`,
  `_wrap_cmd` and the button wiring of `_build_ui`).

The overlay raster is represented in two ways, each faithful to the part
of the code it serves: the mask exporter reads pixels, so there the
overlay is a grid of RGBA values; the drawing engine only issues PIL
drawing primitives (`drawer.line`, `floodfill`) and copies whole layers,
so there the overlay is the journal of primitives applied to the
initially blank raster (PIL's rasterizer is an external library; a blank
layer is the empty journal, and Python's `copy()` becomes value
semantics).
-/

namespace DrawApp

/-! ## Mask exporter (`save`, draw_app.py lines 741-791) -/

/-- An RGB color triple, channels 0..255. -/
abbrev RGB := Nat × Nat × Nat

/-- An RGBA pixel, channels 0..255 (`a = 0` means transparent). -/
abbrev RGBA := Nat × Nat × Nat × Nat

/-- `COLOR_TOL = 10` (draw_app.py line 753). -/
def COLOR_TOL : Nat := 10

/-- `abs(c - p)` for channel values (both are naturals 0..255). -/
def chanDiff (c p : Nat) : Nat := if c ≥ p then c - p else p - c

/-- The per-pen test of lines 785-789: all three channel differences are
within `COLOR_TOL`, inclusive. -/
def colorMatches (r g b : Nat) (pen : RGB) : Bool :=
  chanDiff r pen.1 ≤ COLOR_TOL && chanDiff g pen.2.1 ≤ COLOR_TOL &&
    chanDiff b pen.2.2 ≤ COLOR_TOL

/-- The inner loop of lines 779-791 for one pixel: a zero-alpha pixel is
skipped (`continue`), otherwise the first matching pen color is written
as `(pr, pg, pb, a)` (note: the pen's RGB with the pixel's alpha) and
the loop breaks; the destination buffer starts blank, `(0,0,0,0)`. -/
def maskPixel (matching : List RGB) (px : RGBA) : RGBA :=
  match px with
  | (r, g, b, a) =>
    if a = 0 then (0, 0, 0, 0)
    else
      match matching.find? (fun pc => colorMatches r g b pc) with
      | some (pr, pg, pb) => (pr, pg, pb, a)
      | none => (0, 0, 0, 0)

/-- Python's `str.strip()`: drop whitespace from both ends (translated
to explicit list recursion so that it is kernel-executable; the labels
and category names in play are ASCII). -/
def pyStrip (t : String) : String :=
  ⟨((t.data.dropWhile fun c => c.isWhitespace).reverse.dropWhile
      fun c => c.isWhitespace).reverse⟩

/-- Python's `str.lower()` (ASCII scope, as used by the labels). -/
def pyLower (t : String) : String := ⟨t.data.map Char.toLower⟩

/-- Lines 767-773: collect the colors of every pen whose label, trimmed
and lowercased, equals the category name, trimmed and lowercased
(`label_text.strip().lower() == defect.strip().lower()`).  The pen
colors come from `style_config.py` (not part of this repository's
source), so the pen-to-color assignment is a parameter; the code's
truncation of RGBA constants to RGB (lines 771-772) is absorbed by
taking `penToColor` to yield RGB triples. -/
def matchingColors (penLabels : List (String × String))
    (penToColor : String → RGB) (defect : String) : List RGB :=
  (penLabels.filter
      (fun kv => pyLower (pyStrip kv.2) == pyLower (pyStrip defect))).map
    (fun kv => penToColor kv.1)

/-- The whole per-category extraction loop of lines 775-791: a fresh
blank RGBA buffer the size of the layer, each pixel classified by
`maskPixel`. -/
def extractMask (penLabels : List (String × String))
    (penToColor : String → RGB) (defect : String)
    (layer : List (List RGBA)) : List (List RGBA) :=
  layer.map (fun row => row.map (maskPixel (matchingColors penLabels penToColor defect)))

/-- Pixel access on a grid: row `y`, column `x`. -/
def pixelAt (g : List (List RGBA)) (x y : Nat) : Option RGBA :=
  (g.get? y).bind (fun row => row.get? x)

/-! ## Transform (`_on_left_press` lines 607-610, `_on_left_move` lines 625-627) -/

/-- Python's `int()` on a real quotient: truncation toward zero
(ceiling for negative values, floor otherwise). -/
def pyInt (q : ℚ) : ℤ := if q < 0 then ⌈q⌉ else ⌊q⌋

/-- `ix = int((canvasx(ev.x) - pan_x) / zoom)` (lines 608-610):
the image-space coordinate from a screen/canvas coordinate `s`,
pan offset `p` and zoom `z`. -/
def screenToImage (s p z : ℚ) : ℤ := pyInt ((s - p) / z)

/-! ## Drawing engine state

The overlay, for the drawing engine, is the journal of PIL primitives
applied to the initially blank raster (PIL's rasterizer is external to
the repository): `drawer.line(...)` and `floodfill(...)` append one
primitive, `Image.new(...)` is the empty journal, and `layer.copy()` is
value copying. -/

/-- The drawing mode, `self.mode` (`"draw"` or `"erase"`). -/
inductive Mode where
  | draw
  | erase
deriving DecidableEq, Repr

/-- One PIL drawing primitive issued against the overlay. -/
inductive DrawOp where
  | line (x1 y1 x2 y2 : Int) (color : RGBA) (width : Nat)
  | fill (x y : Int) (color : RGBA)
deriving DecidableEq, Repr

/-- The overlay as the journal of primitives applied to a blank raster. -/
abbrev Overlay := List DrawOp

/-- One entry of `metadata.json` (each field may be absent in the
stored JSON object; fields beyond these six are not touched by the
program and are outside the model). -/
structure MetaEntry where
  note : Option String := none
  inspector : Option String := none
  tray : Option String := none
  defects : Option (List String) := none
  pen_labels : Option (List (String × String)) := none
  last_saved : Option String := none
deriving DecidableEq, Repr

/-- The whole metadata store, keyed by image basename. -/
abbrev Metadata := List (String × MetaEntry)

/-- Dictionary lookup, `meta.get(key, {})` without the default. -/
def lookupMeta (m : Metadata) (k : String) : Option MetaEntry :=
  (m.find? (fun kv => kv.1 == k)).map (fun kv => kv.2)

/-- Dictionary assignment `meta[key] = entry`: replace the entry at the
key if present (keys are unique in a JSON object), else add it. -/
def setMeta : Metadata → String → MetaEntry → Metadata
  | [], k, e => [(k, e)]
  | kv :: rest, k, e =>
    if kv.1 == k then (k, e) :: rest else kv :: setMeta rest k e

/-- The mutable state of `DrawApp` relevant to the annotation engine
(widget variables are carried as their values). -/
structure AppState where
  layer : Overlay
  history : List Overlay
  redoStack : List Overlay
  mode : Mode
  fillVar : Bool
  drawing : Bool
  strokeStartX : Int := 0
  strokeStartY : Int := 0
  lastX : Int := 0
  lastY : Int := 0
  penColor : RGBA
  penWidth : Nat
  currentPen : String
  zoom : ℚ
  panX : ℚ := 0
  panY : ℚ := 0
  idx : Nat
  noteText : String
  inspectorVar : String
  trayVar : String
  defectVars : List (String × Bool)
  penVars : List (String × String)
  saveTsVar : String
  unsavedClear : Bool
deriving DecidableEq, Repr

/-- `_record_history` (lines 601-605): append a deep copy of the
overlay, evict the oldest entry if the length exceeds 50, clear the
redo stack. -/
def historyPush (h : List Overlay) (l : Overlay) : List Overlay :=
  let h' := h ++ [l]
  if h'.length > 50 then h'.tail else h'

/-- `_record_history` on the whole state. -/
def recordHistory (s : AppState) : AppState :=
  { s with history := historyPush s.history s.layer, redoStack := [] }

/-- `_on_left_press` (lines 607-620): compute the image-space point; in
fill mode flood-fill there and commit; otherwise, if not already
stroking, start a stroke there.  `cx`/`cy` are the
`canvasx`/`canvasy`-converted event coordinates. -/
def onLeftPress (s : AppState) (cx cy : ℚ) : AppState :=
  let ix := screenToImage cx s.panX s.zoom
  let iy := screenToImage cy s.panY s.zoom
  if s.fillVar then
    recordHistory { s with layer := s.layer ++ [DrawOp.fill ix iy s.penColor] }
  else if s.drawing then s
  else
    { s with drawing := true, strokeStartX := ix, strokeStartY := iy,
             lastX := ix, lastY := iy }

/-- `_on_left_move` (lines 622-637): while stroking (and not in fill
mode), draw one segment from the last point to the current point with
the mode's color/width, then update the last point.  No history commit
happens here. -/
def onLeftMove (s : AppState) (cx cy : ℚ) : AppState :=
  if s.fillVar ∨ ¬ s.drawing then s
  else
    let ix := screenToImage cx s.panX s.zoom
    let iy := screenToImage cy s.panY s.zoom
    let cw : RGBA × Nat :=
      if s.mode = Mode.draw then (s.penColor, s.penWidth) else ((0, 0, 0, 0), 20)
    { s with layer := s.layer ++ [DrawOp.line s.lastX s.lastY ix iy cw.1 cw.2],
             lastX := ix, lastY := iy }

/-- `_on_left_release` (lines 639-652): only when stroking in draw mode
(and not in fill mode), snap-close the shape with a segment back to the
stroke's start and commit one history entry; in every case stop
stroking. -/
def onLeftRelease (s : AppState) : AppState :=
  let s' :=
    if s.drawing ∧ s.mode = Mode.draw ∧ s.fillVar = false then
      recordHistory
        { s with layer := s.layer ++
            [DrawOp.line s.lastX s.lastY s.strokeStartX s.strokeStartY
              s.penColor s.penWidth] }
    else s
  { s' with drawing := false }

/-- A sequence of `_on_left_move` events. -/
def applyMoves (s : AppState) (ps : List (ℚ × ℚ)) : AppState :=
  ps.foldl (fun st p => onLeftMove st p.1 p.2) s

/-- `set_mode` (lines 671-673); the cursor change is display-only. -/
def setMode (s : AppState) (m : Mode) : AppState := { s with mode := m }

/-- `_set_zoom` (lines 675-677): multiply and clamp into
`[0.1, 10.0]`, silently. -/
def setZoom (s : AppState) (factor : ℚ) : AppState :=
  { s with zoom := max (1/10) (min (s.zoom * factor) 10) }

/-- `clear_all` (lines 679-691): blank overlay, history reset to that
single blank entry, redo emptied, note/inspector cleared, all defect
selections and pen labels emptied, one-shot continuity-suppression flag
set.  (Setting the defect variables fires the `_update_pen_labels`
trace, but the explicit pen-label loop afterwards leaves the same final
all-empty labels.) -/
def clearAll (s : AppState) : AppState :=
  { s with layer := [], history := [[]], redoStack := [],
           noteText := "", inspectorVar := "",
           defectVars := s.defectVars.map (fun kv => (kv.1, false)),
           penVars := s.penVars.map (fun kv => (kv.1, "")),
           unsavedClear := true }

/-- `undo` (lines 693-698): if more than one entry remains, pop the top
onto the redo stack and restore the overlay to the new top.  (The
guard makes the popped and restored entries total; the `getD []` branch
is unreachable under the guard.) -/
def undo (s : AppState) : AppState :=
  if s.history.length > 1 then
    match s.history.getLast? with
    | some top =>
      let h' := s.history.dropLast
      { s with redoStack := s.redoStack ++ [top], history := h',
               layer := (h'.getLast?).getD [] }
    | none => s
  else s

/-- `redo` (lines 700-706): if the redo stack is non-empty, pop its
top, append it to the history and restore the overlay to it. -/
def redo (s : AppState) : AppState :=
  match s.redoStack.getLast? with
  | some img =>
    { s with redoStack := s.redoStack.dropLast,
             history := s.history ++ [img], layer := img }
  | none => s

/-! ## Pen registry (`_update_pen_labels`, `select_pen`) and image load -/

/-- The fixed defect-to-pen table of `_update_pen_labels`
(lines 496-503). -/
def defectPenMapping : List (String × String) :=
  [("chip", "pen1"), ("scratch", "pen2"), ("gouge", "pen3"),
   ("inclusion", "pen4"), ("void", "pen5"), ("other", "pen6")]

/-- The fixed keys of `self.pen_vars` (lines 389-396). -/
def penKeys : List String :=
  ["pen1", "pen2", "pen3", "pen4", "pen5", "pen6"]

/-- `self.pen_vars[k].set(v)`: update the value bound to an existing
pen key. -/
def setPenVar (pv : List (String × String)) (k v : String) :
    List (String × String) :=
  pv.map (fun kv => if kv.1 == k then (kv.1, v) else kv)

/-- One iteration of the `_update_pen_labels` assignment loop
(lines 508-510): `if var.get() and defect in mapping:
pen_vars[mapping[defect]].set(defect)`. -/
def updatePenLabelsStep (pv : List (String × String))
    (dv : String × Bool) : List (String × String) :=
  if dv.2 then
    match (defectPenMapping.find? (fun m => m.1 == dv.1)).map
        (fun m => m.2) with
    | some pen => setPenVar pv pen dv.1
    | none => pv
  else pv

/-- `_update_pen_labels` (lines 494-510): clear every pen label, then
assign each selected defect to its dedicated pen via the fixed table
(defects outside the table get no pen). -/
def updatePenLabels (defectVars : List (String × Bool)) :
    List (String × String) :=
  defectVars.foldl updatePenLabelsStep (penKeys.map (fun k => (k, "")))

/-- One iteration of the persisted-label override loop of `_load_image`
(lines 584-586): `if pen_key in self.pen_vars:
self.pen_vars[pen_key].set(lab)`. -/
def applyPersistedStep (acc : List (String × String))
    (kv : String × String) : List (String × String) :=
  if (acc.find? (fun e => e.1 == kv.1)).isSome
  then setPenVar acc kv.1 kv.2 else acc

/-- The persisted-label override loop of `_load_image` (lines 584-586):
`for pen_key, lab in meta.get("pen_labels", {}).items(): ...`. -/
def applyPersisted (pv : List (String × String))
    (persisted : List (String × String)) : List (String × String) :=
  persisted.foldl applyPersistedStep pv

/-- The read-only environment a session runs against: the configured
defect vocabulary, the image list (count, per-index basename and folder
name), the combined-mask layer found on disk for each index (blank if
none), the pen colors from `style_config.py` (external to this
repository's source), and the metadata store content.  File-system
sequencing between writes and subsequent reads is outside the model;
commands read the store as `meta`. -/
structure Env where
  defects : List String
  imageCount : Nat
  imageKey : Nat → String
  folderOf : Nat → String
  loadedLayer : Nat → Overlay
  penToColor : String → RGBA
  meta : Metadata

/-- `select_pen` (lines 517-529): set the active pen, its color and
width, and force draw mode. -/
def selectPen (env : Env) (s : AppState) (k : String) : AppState :=
  { s with currentPen := k, penColor := env.penToColor k, penWidth := 8,
           mode := Mode.draw }

/-- `_load_image` (lines 531-588), on the state fields of the model:
overlay from the persisted combined mask (blank when none), history
reset to that single entry, redo emptied, pan/zoom reset, note, tray,
defect selections and last-saved display taken from the metadata
entry, pen labels derived from the selections by `_update_pen_labels`
and then overridden by the persisted `pen_labels`, and the
clear-suppression flag reset.  (The initial `zoom = 1` is replaced by
the separate fit-to-canvas step on navigation, which is
viewport-dependent and outside the model.) -/
def loadImage (env : Env) (s : AppState) : AppState :=
  let key := env.imageKey s.idx
  let e := (lookupMeta env.meta key).getD {}
  let tray0 := ((env.folderOf s.idx).splitOn "_").headD ""
  let dv := env.defects.map (fun d => (d, (e.defects.getD []).contains d))
  { s with
    layer := env.loadedLayer s.idx,
    history := [env.loadedLayer s.idx],
    redoStack := [],
    panX := 0, panY := 0, zoom := 1, drawing := false,
    noteText := e.note.getD "",
    trayVar := match e.tray with
      | some t => if t ≠ "" then t else tray0
      | none => tray0,
    defectVars := dv,
    penVars := applyPersisted (updatePenLabels dv) (e.pen_labels.getD []),
    saveTsVar := e.last_saved.getD "never",
    unsavedClear := false }

/-! ## Saving (`save` lines 733-848, `_save_current` lines 850-880) -/

/-- The `entry.update({...})` fields common to `save` (lines 835-844)
and `_save_current` (lines 869-878): note, inspector, tray, selected
defects and pen labels from the current widgets, plus the given
`last_saved` value; other keys of the entry are preserved. -/
def currentEntryUpdate (s : AppState) (old : MetaEntry)
    (lastSaved : String) : MetaEntry :=
  { old with
    note := some s.noteText,
    inspector := some s.inspectorVar,
    tray := some s.trayVar,
    defects := some ((s.defectVars.filter (fun kv => kv.2)).map
      (fun kv => kv.1)),
    pen_labels := some s.penVars,
    last_saved := some lastSaved }

/-- `_save_current` (lines 850-880), the continuity save: returns the
combined mask written (the raw overlay) and the metadata store after
the rewrite; `last_saved` is set to its prior value, or `"never"` when
absent (`entry.get("last_saved", "never")`). -/
def saveCurrent (env : Env) (s : AppState) : Overlay × Metadata :=
  let key := env.imageKey s.idx
  let old := (lookupMeta env.meta key).getD {}
  (s.layer,
   setMeta env.meta key
     (currentEntryUpdate s old (old.last_saved.getD "never")))

/-- The explicit `save` (lines 733-848), on the fields of the model:
besides the per-category masks (the raster pipeline modelled by
`extractMask`) it writes the combined mask (the raw overlay), rewrites
the metadata entry with `last_saved := now` and sets the last-saved
display to `now`.  `now` is the formatted current timestamp. -/
def save (env : Env) (now : String) (s : AppState) :
    AppState × Overlay × Metadata :=
  let key := env.imageKey s.idx
  let old := (lookupMeta env.meta key).getD {}
  ({ s with saveTsVar := now },
   s.layer,
   setMeta env.meta key (currentEntryUpdate s old now))

/-! ## Command wiring (`_wrap_cmd` lines 122-128, `_build_ui`
lines 286-319, 417-449) -/

/-- The controls wired through `_wrap_cmd` in `_build_ui`: the eight
main buttons (lines 286-298, the Draw and Erase buttons among them),
the two zoom buttons (lines 313-319), the six pen buttons (line 420)
and the two export buttons (lines 438-449). -/
inductive Action where
  | prev
  | next
  | clear
  | undo
  | redo
  | modeDraw
  | modeErase
  | save (now : String)
  | zoomOut
  | zoomIn
  | usePen (k : String)
  | exportXlsx
  | exportCsv
deriving DecidableEq, Repr

/-- The command each control invokes (its effect on the modelled
state; the exports only write files and report, leaving the state
unchanged, and `prev`/`next` is the Python `(idx ± 1) % len` followed
by `_load_image`; the continuity write of `prev`/`next` is returned by
`saveCurrent` and does not change widget state). -/
def runCommand (env : Env) (a : Action) (s : AppState) : AppState :=
  match a with
  | .prev => loadImage env
      { s with idx := (s.idx + env.imageCount - 1) % env.imageCount }
  | .next => loadImage env { s with idx := (s.idx + 1) % env.imageCount }
  | .clear => clearAll s
  | .undo => undo s
  | .redo => redo s
  | .modeDraw => setMode s Mode.draw
  | .modeErase => setMode s Mode.erase
  | .save now => (save env now s).1
  | .zoomOut => setZoom s (9/10)
  | .zoomIn => setZoom s (11/10)
  | .usePen k => selectPen env s k
  | .exportXlsx => s
  | .exportCsv => s

/-- `_wrap_cmd` (lines 122-128): disable fill mode, then run the
wrapped command. -/
def wrapCmd (f : AppState → AppState) (s : AppState) : AppState :=
  f { s with fillVar := false }

/-- Every listed control dispatches through `_wrap_cmd`
(`command=self._wrap_cmd(fn)` at lines 298, 317, 420, 441, 447). -/
def dispatch (env : Env) (a : Action) (s : AppState) : AppState :=
  wrapCmd (runCommand env a) s

/-! ## Concrete fixtures for witnesses and counterexamples -/

/-- A freshly loaded session state: blank overlay, one blank history
entry, nothing selected. -/
def baseState : AppState :=
  { layer := [], history := [[]], redoStack := [], mode := Mode.draw,
    fillVar := false, drawing := false, penColor := (255, 0, 0, 255),
    penWidth := 8, currentPen := "pen1", zoom := 1, idx := 0,
    noteText := "", inspectorVar := "", trayVar := "", defectVars := [],
    penVars := [], saveTsVar := "never", unsavedClear := false }

/-- A minimal one-image environment. -/
def baseEnv : Env :=
  { defects := ["chip", "scratch"], imageCount := 1,
    imageKey := fun _ => "img.png", folderOf := fun _ => "tray1_a",
    loadedLayer := fun _ => [], penToColor := fun _ => (255, 0, 0, 255),
    meta := [] }

/-! ## Helper lemmas -/

lemma getLast?_append_singleton {α : Type} (l : List α) (a : α) :
    (l ++ [a]).getLast? = some a := by
  induction l with
  | nil => rfl
  | cons x xs ih =>
    cases xs with
    | nil => rfl
    | cons y ys => simpa using ih

lemma dropLast_append_singleton {α : Type} (l : List α) (a : α) :
    (l ++ [a]).dropLast = l := by
  induction l with
  | nil => rfl
  | cons x xs ih =>
    cases xs with
    | nil => rfl
    | cons y ys => simpa using ih

lemma dropLast_append_of_getLast? {α : Type} (l : List α) (a : α)
    (h : l.getLast? = some a) : l.dropLast ++ [a] = l := by
  induction l with
  | nil => simp at h
  | cons x xs ih =>
    cases xs with
    | nil => simp at h; simp [h]
    | cons y ys =>
      have h' : (y :: ys).getLast? = some a := by simpa using h
      have h2 := ih h'
      show x :: ((y :: ys).dropLast ++ [a]) = x :: (y :: ys)
      rw [h2]

/-! ## Claim C2: the screen-to-image transform -/

/-- Claim C2, counterexample: the claim asserts
`ix = floor((sx - px) / z)` also for negative `sx - px`; at
`sx = 0, px = 3, z = 2` the code computes `int(-1.5) = -1` while the
floor is `-2`. -/
theorem c2_counterexample :
    screenToImage 0 3 2 ≠ ⌊((0 : ℚ) - 3) / 2⌋ := by
  have h1 : screenToImage 0 3 2 = -1 := by
    rw [screenToImage, pyInt, if_pos (by norm_num : ((0 : ℚ) - 3) / 2 < 0)]
    rw [Int.ceil_eq_iff]
    constructor <;> norm_num
  have h2 : (⌊((0 : ℚ) - 3) / 2⌋ : ℤ) = -2 := by norm_num
  rw [h1, h2]
  decide

/-- Claim C2, amended: for zoom `z > 0` the image-space coordinate is
the truncation toward zero of `(sx - px) / z` — the floor when
`sx ≥ px`, the ceiling when `sx < px`. -/
theorem c2_truncation (sx px z : ℚ) (hz : 0 < z) :
    (px ≤ sx → screenToImage sx px z = ⌊(sx - px) / z⌋) ∧
    (sx < px → screenToImage sx px z = ⌈(sx - px) / z⌉) := by
  constructor
  · intro h
    rw [screenToImage, pyInt, if_neg]
    exact not_lt.mpr (div_nonneg (sub_nonneg.mpr h) hz.le)
  · intro h
    rw [screenToImage, pyInt, if_pos]
    exact div_neg_of_neg_of_pos (sub_neg.mpr h) hz

/-- Claim C2, witness: the amended transform at `(sx, px, z) = (10, 3, 2)`
and at `(0, 3, 2)`. -/
theorem c2_truncation_witness :
    screenToImage 10 3 2 = ⌊((10 : ℚ) - 3) / 2⌋ ∧
    screenToImage 0 3 2 = ⌈((0 : ℚ) - 3) / 2⌉ :=
  ⟨(c2_truncation 10 3 2 (by norm_num)).1 (by norm_num),
   (c2_truncation 0 3 2 (by norm_num)).2 (by norm_num)⟩

/-! ## Claim C5: commit semantics and the history invariant -/

/-- Claim C5: `_record_history` appends a copy of the current overlay
(so the overlay equals the last history entry afterwards), clears the
redo stack, evicts the oldest entry exactly when the appended length
exceeds 50, and keeps the length at most 50 whenever it was before the
commit. -/
theorem c5_commit (s : AppState) (hle : s.history.length ≤ 50) :
    (recordHistory s).history.getLast? = some s.layer ∧
    (recordHistory s).layer = s.layer ∧
    (recordHistory s).history.getLast? = some (recordHistory s).layer ∧
    (recordHistory s).redoStack = [] ∧
    (recordHistory s).history.length ≤ 50 ∧
    ((s.history ++ [s.layer]).length > 50 →
      (recordHistory s).history = (s.history ++ [s.layer]).tail) := by
  have hlast : (historyPush s.history s.layer).getLast? = some s.layer := by
    rw [historyPush]
    split
    · rename_i hgt
      cases h : s.history with
      | nil => rw [h] at hgt; simp at hgt
      | cons x xs =>
        simp [getLast?_append_singleton xs s.layer]
    · exact getLast?_append_singleton _ _
  refine ⟨hlast, rfl, hlast, rfl, ?_, ?_⟩
  · rw [recordHistory]
    show (historyPush s.history s.layer).length ≤ 50
    rw [historyPush]
    split
    · rename_i hgt
      simp only [List.length_tail, List.length_append, List.length_cons,
        List.length_nil] at *
      omega
    · rename_i hgt
      simp only [List.length_append, List.length_cons, List.length_nil] at *
      omega
  · intro hgt
    rw [recordHistory]
    show historyPush s.history s.layer = _
    rw [historyPush, if_pos hgt]

/-- Claim C5, witness: a commit from the freshly loaded state. -/
theorem c5_commit_witness :
    (recordHistory baseState).history.getLast? = some baseState.layer ∧
    (recordHistory baseState).layer = baseState.layer ∧
    (recordHistory baseState).history.getLast?
      = some (recordHistory baseState).layer ∧
    (recordHistory baseState).redoStack = [] ∧
    (recordHistory baseState).history.length ≤ 50 ∧
    ((baseState.history ++ [baseState.layer]).length > 50 →
      (recordHistory baseState).history
        = (baseState.history ++ [baseState.layer]).tail) :=
  c5_commit baseState (by decide)

/-! ## Claim C6: silent bounding of undo, redo and zoom -/

lemma setZoom_bounds (s : AppState) (f : ℚ) :
    1/10 ≤ (setZoom s f).zoom ∧ (setZoom s f).zoom ≤ 10 := by
  constructor
  · exact le_max_left _ _
  · exact max_le (by norm_num) (min_le_right _ _)

lemma foldl_setZoom_bounds (fs : List ℚ) (s : AppState)
    (h : 1/10 ≤ s.zoom ∧ s.zoom ≤ 10) :
    1/10 ≤ (fs.foldl setZoom s).zoom ∧ (fs.foldl setZoom s).zoom ≤ 10 := by
  induction fs generalizing s with
  | nil => exact h
  | cons f fs ih => exact ih (setZoom s f) (setZoom_bounds s f)

/-- Claim C6: `undo` with at most one history entry and `redo` with an
empty redo stack leave the state unchanged, and any sequence of
multiplicative zoom requests starting inside `[0.1, 10.0]` stays inside
`[0.1, 10.0]` — all silently, no failure value exists. -/
theorem c6_silent_bounding (s : AppState) (fs : List ℚ)
    (h1 : s.history.length ≤ 1) (h2 : s.redoStack = [])
    (h3 : 1/10 ≤ s.zoom ∧ s.zoom ≤ 10) :
    undo s = s ∧ redo s = s ∧
    1/10 ≤ (fs.foldl setZoom s).zoom ∧ (fs.foldl setZoom s).zoom ≤ 10 := by
  refine ⟨?_, ?_, foldl_setZoom_bounds fs s h3⟩
  · rw [undo, if_neg (by omega)]
  · rw [redo, h2]
    rfl

/-- Claim C6, witness: the fresh state with the zoom request sequence
`[2, 1/2, 100, 1/1000]`. -/
theorem c6_silent_bounding_witness :
    undo baseState = baseState ∧ redo baseState = baseState ∧
    1/10 ≤ (([2, 1/2, 100, 1/1000] : List ℚ).foldl setZoom baseState).zoom ∧
    (([2, 1/2, 100, 1/1000] : List ℚ).foldl setZoom baseState).zoom ≤ 10 :=
  c6_silent_bounding baseState [2, 1/2, 100, 1/1000] (by decide) rfl
    (by constructor <;> norm_num [baseState])

/-! ## Claim C8: continuity save versus explicit save -/

lemma lookupMeta_setMeta (m : Metadata) (k : String) (e : MetaEntry) :
    lookupMeta (setMeta m k e) k = some e := by
  induction m with
  | nil => simp [setMeta, lookupMeta]
  | cons kv rest ih =>
    rw [setMeta]
    split
    · simp [lookupMeta]
    · rename_i hne
      rw [lookupMeta, List.find?]
      rw [Bool.of_not_eq_true hne]
      exact ih

/-- Claim C8: the continuity save (`_save_current`) writes the raw
overlay as the combined mask and rewrites the image's metadata entry
from the current widgets, but sets `last_saved` to its prior value
(`"never"` when absent); the explicit `save` sets `last_saved` — and
the last-saved display — to the current timestamp. -/
theorem c8_continuity_save (env : Env) (s : AppState) (now : String) :
    (saveCurrent env s).1 = s.layer ∧
    lookupMeta (saveCurrent env s).2 (env.imageKey s.idx)
      = some (currentEntryUpdate s
          ((lookupMeta env.meta (env.imageKey s.idx)).getD {})
          ((((lookupMeta env.meta (env.imageKey s.idx)).getD
            {}).last_saved).getD "never")) ∧
    ((lookupMeta (saveCurrent env s).2 (env.imageKey s.idx)).map
        (fun e => e.last_saved))
      = some (some ((((lookupMeta env.meta (env.imageKey s.idx)).getD
          {}).last_saved).getD "never")) ∧
    (save env now s).2.1 = s.layer ∧
    ((lookupMeta (save env now s).2.2 (env.imageKey s.idx)).map
        (fun e => e.last_saved)) = some (some now) ∧
    (save env now s).1.saveTsVar = now := by
  refine ⟨rfl, ?_, ?_, rfl, ?_, rfl⟩
  · exact lookupMeta_setMeta _ _ _
  · rw [show (saveCurrent env s).2
        = setMeta env.meta (env.imageKey s.idx)
            (currentEntryUpdate s
              ((lookupMeta env.meta (env.imageKey s.idx)).getD {})
              ((((lookupMeta env.meta (env.imageKey s.idx)).getD
                {}).last_saved).getD "never")) from rfl]
    rw [lookupMeta_setMeta]
    rfl
  · rw [show (save env now s).2.2
        = setMeta env.meta (env.imageKey s.idx)
            (currentEntryUpdate s
              ((lookupMeta env.meta (env.imageKey s.idx)).getD {}) now)
          from rfl]
    rw [lookupMeta_setMeta]
    rfl

/-! ## Claim C3: stroke gestures, closing segment and commits -/

/-- A whole stroke gesture up to (excluding) the release: pointer-down
at `c0`, then the pointer-move sequence `ps`. -/
def strokeMid (s0 : AppState) (c0 : ℚ × ℚ) (ps : List (ℚ × ℚ)) : AppState :=
  applyMoves (onLeftPress s0 c0.1 c0.2) ps

/-- A whole stroke gesture: pointer-down at `c0`, moves `ps`,
pointer-up. -/
def strokeGesture (s0 : AppState) (c0 : ℚ × ℚ) (ps : List (ℚ × ℚ)) :
    AppState :=
  onLeftRelease (strokeMid s0 c0 ps)

lemma onLeftMove_frame (s : AppState) (cx cy : ℚ) :
    (onLeftMove s cx cy).history = s.history ∧
    (onLeftMove s cx cy).redoStack = s.redoStack ∧
    (onLeftMove s cx cy).fillVar = s.fillVar ∧
    (onLeftMove s cx cy).mode = s.mode ∧
    (onLeftMove s cx cy).drawing = s.drawing ∧
    (onLeftMove s cx cy).strokeStartX = s.strokeStartX ∧
    (onLeftMove s cx cy).strokeStartY = s.strokeStartY ∧
    (onLeftMove s cx cy).penColor = s.penColor ∧
    (onLeftMove s cx cy).penWidth = s.penWidth := by
  rw [onLeftMove]
  split
  · exact ⟨rfl, rfl, rfl, rfl, rfl, rfl, rfl, rfl, rfl⟩
  · exact ⟨rfl, rfl, rfl, rfl, rfl, rfl, rfl, rfl, rfl⟩

lemma applyMoves_frame (ps : List (ℚ × ℚ)) (s : AppState) :
    (applyMoves s ps).history = s.history ∧
    (applyMoves s ps).redoStack = s.redoStack ∧
    (applyMoves s ps).fillVar = s.fillVar ∧
    (applyMoves s ps).mode = s.mode ∧
    (applyMoves s ps).drawing = s.drawing ∧
    (applyMoves s ps).strokeStartX = s.strokeStartX ∧
    (applyMoves s ps).strokeStartY = s.strokeStartY ∧
    (applyMoves s ps).penColor = s.penColor ∧
    (applyMoves s ps).penWidth = s.penWidth := by
  induction ps generalizing s with
  | nil => exact ⟨rfl, rfl, rfl, rfl, rfl, rfl, rfl, rfl, rfl⟩
  | cons p ps ih =>
    obtain ⟨m1, m2, m3, m4, m5, m6, m7, m8, m9⟩ :=
      onLeftMove_frame s p.1 p.2
    obtain ⟨a1, a2, a3, a4, a5, a6, a7, a8, a9⟩ :=
      ih (onLeftMove s p.1 p.2)
    exact ⟨a1.trans m1, a2.trans m2, a3.trans m3, a4.trans m4,
      a5.trans m5, a6.trans m6, a7.trans m7, a8.trans m8, a9.trans m9⟩

lemma onLeftPress_start (s : AppState) (cx cy : ℚ)
    (hf : s.fillVar = false) (hd : s.drawing = false) :
    onLeftPress s cx cy =
      { s with drawing := true,
               strokeStartX := screenToImage cx s.panX s.zoom,
               strokeStartY := screenToImage cy s.panY s.zoom,
               lastX := screenToImage cx s.panX s.zoom,
               lastY := screenToImage cy s.panY s.zoom } := by
  rw [onLeftPress]
  simp only [hf, hd]
  rfl

/-- Claim C3, counterexample: the claim asserts that, regardless of
draw or erase mode, pointer-up draws one final segment back to the
gesture's start and commits exactly one history entry.  In erase mode
the release handler's guard `self.mode == "draw"` (line 640) skips
both: after an erase gesture of one move, the history is untouched
(zero commits, the claim requires its length to have grown by one) and
the overlay holds only the single move segment (no closing
segment). -/
theorem c3_counterexample :
    (strokeGesture { baseState with mode := Mode.erase } (0, 0)
        [(5, 5)]).history.length
      = ({ baseState with mode := Mode.erase } : AppState).history.length ∧
    (strokeGesture { baseState with mode := Mode.erase } (0, 0)
        [(5, 5)]).layer.length
      = ({ baseState with mode := Mode.erase } : AppState).layer.length
          + 1 := by
  constructor
  · decide
  · decide

/-- Claim C3, amended: for every stroke gesture begun outside fill
mode, no history entry is committed on any pointer-move segment; on
pointer-up, IN DRAW MODE one final segment is drawn from the last
point back to the gesture's start point and exactly one history entry
is committed, while IN ERASE MODE the release draws nothing and
commits nothing (it only ends the stroke). -/
theorem c3_stroke_commit (s0 : AppState) (c0 : ℚ × ℚ)
    (ps : List (ℚ × ℚ)) (hf : s0.fillVar = false)
    (hd : s0.drawing = false) :
    (strokeMid s0 c0 ps).history = s0.history ∧
    (strokeMid s0 c0 ps).redoStack = s0.redoStack ∧
    (s0.mode = Mode.draw →
      (strokeGesture s0 c0 ps).layer = (strokeMid s0 c0 ps).layer ++
        [DrawOp.line (strokeMid s0 c0 ps).lastX (strokeMid s0 c0 ps).lastY
          (screenToImage c0.1 s0.panX s0.zoom)
          (screenToImage c0.2 s0.panY s0.zoom) s0.penColor s0.penWidth] ∧
      (strokeGesture s0 c0 ps).history
        = historyPush s0.history (strokeGesture s0 c0 ps).layer ∧
      (strokeGesture s0 c0 ps).redoStack = [] ∧
      (strokeGesture s0 c0 ps).drawing = false) ∧
    (s0.mode = Mode.erase →
      (strokeGesture s0 c0 ps).layer = (strokeMid s0 c0 ps).layer ∧
      (strokeGesture s0 c0 ps).history = s0.history ∧
      (strokeGesture s0 c0 ps).redoStack = s0.redoStack ∧
      (strokeGesture s0 c0 ps).drawing = false) := by
  have hpress := onLeftPress_start s0 c0.1 c0.2 hf hd
  have pfh : (onLeftPress s0 c0.1 c0.2).history = s0.history := by
    rw [hpress]
  have pfr : (onLeftPress s0 c0.1 c0.2).redoStack = s0.redoStack := by
    rw [hpress]
  have pff : (onLeftPress s0 c0.1 c0.2).fillVar = false := by
    rw [hpress]; exact hf
  have pfm : (onLeftPress s0 c0.1 c0.2).mode = s0.mode := by rw [hpress]
  have pfd : (onLeftPress s0 c0.1 c0.2).drawing = true := by rw [hpress]
  have pfsx : (onLeftPress s0 c0.1 c0.2).strokeStartX
      = screenToImage c0.1 s0.panX s0.zoom := by rw [hpress]
  have pfsy : (onLeftPress s0 c0.1 c0.2).strokeStartY
      = screenToImage c0.2 s0.panY s0.zoom := by rw [hpress]
  have pfpc : (onLeftPress s0 c0.1 c0.2).penColor = s0.penColor := by
    rw [hpress]
  have pfpw : (onLeftPress s0 c0.1 c0.2).penWidth = s0.penWidth := by
    rw [hpress]
  obtain ⟨a1, a2, a3, a4, a5, a6, a7, a8, a9⟩ :=
    applyMoves_frame ps (onLeftPress s0 c0.1 c0.2)
  have smh : (strokeMid s0 c0 ps).history = s0.history := a1.trans pfh
  have smr : (strokeMid s0 c0 ps).redoStack = s0.redoStack := a2.trans pfr
  have smf : (strokeMid s0 c0 ps).fillVar = false := a3.trans pff
  have smm : (strokeMid s0 c0 ps).mode = s0.mode := a4.trans pfm
  have smd : (strokeMid s0 c0 ps).drawing = true := a5.trans pfd
  have smsx : (strokeMid s0 c0 ps).strokeStartX
      = screenToImage c0.1 s0.panX s0.zoom := a6.trans pfsx
  have smsy : (strokeMid s0 c0 ps).strokeStartY
      = screenToImage c0.2 s0.panY s0.zoom := a7.trans pfsy
  have smpc : (strokeMid s0 c0 ps).penColor = s0.penColor := a8.trans pfpc
  have smpw : (strokeMid s0 c0 ps).penWidth = s0.penWidth := a9.trans pfpw
  refine ⟨smh, smr, ?_, ?_⟩
  · intro hmode
    have hguard : (strokeMid s0 c0 ps).drawing = true ∧
        (strokeMid s0 c0 ps).mode = Mode.draw ∧
        (strokeMid s0 c0 ps).fillVar = false :=
      ⟨smd, smm.trans hmode, smf⟩
    have hrel : strokeGesture s0 c0 ps =
        { recordHistory
            { strokeMid s0 c0 ps with
              layer := (strokeMid s0 c0 ps).layer ++
                [DrawOp.line (strokeMid s0 c0 ps).lastX
                  (strokeMid s0 c0 ps).lastY
                  (strokeMid s0 c0 ps).strokeStartX
                  (strokeMid s0 c0 ps).strokeStartY
                  (strokeMid s0 c0 ps).penColor
                  (strokeMid s0 c0 ps).penWidth] } with
          drawing := false } := by
      rw [strokeGesture, onLeftRelease, if_pos hguard]
    rw [hrel]
    refine ⟨?_, ?_, rfl, rfl⟩
    · show (strokeMid s0 c0 ps).layer ++ _ = (strokeMid s0 c0 ps).layer ++ _
      rw [smsx, smsy, smpc, smpw]
    · show historyPush (strokeMid s0 c0 ps).history _ = _
      rw [smh]
      rfl
  · intro hmode
    have hguard : ¬ ((strokeMid s0 c0 ps).drawing = true ∧
        (strokeMid s0 c0 ps).mode = Mode.draw ∧
        (strokeMid s0 c0 ps).fillVar = false) := by
      intro hc
      have := smm.symm.trans hc.2.1
      rw [hmode] at this
      cases this
    have hrel : strokeGesture s0 c0 ps =
        { strokeMid s0 c0 ps with drawing := false } := by
      rw [strokeGesture, onLeftRelease, if_neg hguard]
    rw [hrel]
    exact ⟨rfl, smh, smr, rfl⟩

/-- Claim C3, witness: a draw-mode gesture from the fresh state —
pointer-down at `(0,0)`, one move to `(5,5)`, release — closes back to
the start and commits exactly one history entry. -/
theorem c3_stroke_commit_witness :
    (strokeGesture baseState (0, 0) [(5, 5)]).layer
      = (strokeMid baseState (0, 0) [(5, 5)]).layer ++
        [DrawOp.line (strokeMid baseState (0, 0) [(5, 5)]).lastX
          (strokeMid baseState (0, 0) [(5, 5)]).lastY
          (screenToImage 0 baseState.panX baseState.zoom)
          (screenToImage 0 baseState.panY baseState.zoom)
          baseState.penColor baseState.penWidth] ∧
    (strokeGesture baseState (0, 0) [(5, 5)]).history
      = historyPush baseState.history
          (strokeGesture baseState (0, 0) [(5, 5)]).layer ∧
    (strokeGesture baseState (0, 0) [(5, 5)]).redoStack = [] ∧
    (strokeGesture baseState (0, 0) [(5, 5)]).drawing = false :=
  (c3_stroke_commit baseState (0, 0) [(5, 5)] rfl rfl).2.2.1 rfl

/-! ## Claim C9: persisted pen labels override the derived bindings -/

lemma keys_setPenVar (pv : List (String × String)) (k v : String) :
    (setPenVar pv k v).map Prod.fst = pv.map Prod.fst := by
  rw [setPenVar, List.map_map]
  congr 1
  funext kv
  simp only [Function.comp_apply]
  split <;> rfl

lemma isSome_find?_of_key_mem (pv : List (String × String)) (k : String)
    (h : k ∈ pv.map Prod.fst) :
    (pv.find? (fun e => e.1 == k)).isSome = true := by
  induction pv with
  | nil => simp at h
  | cons kv tl ih =>
    cases hk : (kv.1 == k) with
    | true => simp only [List.find?, hk, Option.isSome_some]
    | false =>
      simp only [List.find?, hk]
      apply ih
      rcases List.mem_cons.mp h with h1 | h2
      · rw [show ((kv.1 : String) == k) = true from beq_iff_eq.mpr h1.symm]
          at hk
        simp at hk
      · exact h2

lemma find?_setPenVar_self (pv : List (String × String)) (k v : String)
    (h : (pv.find? (fun e => e.1 == k)).isSome = true) :
    (setPenVar pv k v).find? (fun e => e.1 == k) = some (k, v) := by
  induction pv with
  | nil => simp [List.find?] at h
  | cons kv tl ih =>
    rw [setPenVar, List.map]
    by_cases hk : (kv.1 == k) = true
    · rw [if_pos hk]
      simp only [List.find?, hk]
      rw [eq_of_beq hk]
    · have hkf : ((kv.1 : String) == k) = false := by
        simpa using hk
      rw [if_neg hk]
      simp only [List.find?, hkf]
      simp only [List.find?, hkf] at h
      exact ih h

lemma find?_setPenVar_ne (pv : List (String × String)) (k k' v : String)
    (hne : (k == k') = false) :
    (setPenVar pv k v).find? (fun e => e.1 == k')
      = pv.find? (fun e => e.1 == k') := by
  induction pv with
  | nil => rfl
  | cons kv tl ih =>
    rw [setPenVar, List.map]
    by_cases hk : (kv.1 == k) = true
    · have hp : ((kv.1 : String) == k') = false := by
        rw [eq_of_beq hk]; exact hne
      rw [if_pos hk]
      simp only [List.find?, hp]
      exact ih
    · rw [if_neg hk]
      cases hp : (kv.1 == k') with
      | true => simp only [List.find?, hp]
      | false =>
        simp only [List.find?, hp]
        exact ih

lemma find?_applyPersistedStep_ne (pv : List (String × String))
    (p : String × String) (k : String) (hne : (p.1 == k) = false) :
    (applyPersistedStep pv p).find? (fun e => e.1 == k)
      = pv.find? (fun e => e.1 == k) := by
  rw [applyPersistedStep]
  split
  · exact find?_setPenVar_ne pv p.1 k p.2 hne
  · rfl

lemma find?_applyPersisted_not_mem (ps : List (String × String))
    (pv : List (String × String)) (k : String)
    (h : ∀ kv ∈ ps, (kv.1 == k) = false) :
    (applyPersisted pv ps).find? (fun e => e.1 == k)
      = pv.find? (fun e => e.1 == k) := by
  induction ps generalizing pv with
  | nil => rfl
  | cons p tl ih =>
    rw [show applyPersisted pv (p :: tl)
        = applyPersisted (applyPersistedStep pv p) tl from rfl]
    rw [ih (applyPersistedStep pv p)
      (fun kv hkv => h kv (List.mem_cons_of_mem _ hkv))]
    exact find?_applyPersistedStep_ne pv p k (h p (List.mem_cons_self _ _))

lemma find?_applyPersisted_mem (ps : List (String × String))
    (pv : List (String × String)) (k v : String)
    (hnd : (ps.map Prod.fst).Nodup) (hmem : (k, v) ∈ ps)
    (hkey : (pv.find? (fun e => e.1 == k)).isSome = true) :
    (applyPersisted pv ps).find? (fun e => e.1 == k) = some (k, v) := by
  induction ps generalizing pv with
  | nil => cases hmem
  | cons p tl ih =>
    obtain ⟨p1, p2⟩ := p
    have hnodup :=
      List.nodup_cons.mp (show (p1 :: tl.map Prod.fst).Nodup from hnd)
    rw [show applyPersisted pv ((p1, p2) :: tl)
        = applyPersisted (applyPersistedStep pv (p1, p2)) tl from rfl]
    rcases List.mem_cons.mp hmem with heq | hmem'
    · injection heq with hk hv
      subst hk
      subst hv
      have hstep : applyPersistedStep pv (k, v) = setPenVar pv k v := by
        rw [applyPersistedStep, if_pos hkey]
      rw [hstep]
      have hnok : ∀ kv ∈ tl, (kv.1 == k) = false := by
        intro kv hkv
        cases hb : (kv.1 == k) with
        | false => rfl
        | true =>
          exfalso
          apply hnodup.1
          have hmm : kv.1 ∈ tl.map Prod.fst :=
            List.mem_map_of_mem Prod.fst hkv
          rwa [eq_of_beq hb] at hmm
      rw [find?_applyPersisted_not_mem tl _ k hnok]
      exact find?_setPenVar_self pv k v hkey
    · have hk_ne : (p1 == k) = false := by
        cases hb : (p1 == k) with
        | false => rfl
        | true =>
          exfalso
          apply hnodup.1
          have hmm : k ∈ tl.map Prod.fst :=
            List.mem_map_of_mem Prod.fst hmem'
          rwa [← eq_of_beq hb] at hmm
      apply ih _ hnodup.2 hmem'
      rw [find?_applyPersistedStep_ne pv (p1, p2) k hk_ne]
      exact hkey

lemma keys_updatePenLabelsStep (pv : List (String × String))
    (dv : String × Bool) :
    (updatePenLabelsStep pv dv).map Prod.fst = pv.map Prod.fst := by
  rw [updatePenLabelsStep]
  split
  · split
    · exact keys_setPenVar _ _ _
    · rfl
  · rfl

lemma keys_foldl_updatePenLabels (l : List (String × Bool))
    (pv : List (String × String)) :
    (l.foldl updatePenLabelsStep pv).map Prod.fst = pv.map Prod.fst := by
  induction l generalizing pv with
  | nil => rfl
  | cons d tl ih =>
    rw [List.foldl_cons, ih, keys_updatePenLabelsStep]

lemma keys_updatePenLabels (dv : List (String × Bool)) :
    (updatePenLabels dv).map Prod.fst = penKeys := by
  rw [updatePenLabels, keys_foldl_updatePenLabels]
  rfl

/-- Claim C9: when the persisted metadata of the loaded image carries a
`pen_labels` mapping (with well-formed, unique keys), `_load_image`
sets each listed pen's label to the persisted value AFTER the derived
bindings are computed — the persisted labels override the deterministic
category-to-pen derivation — while every pen not listed keeps its
derived binding. -/
theorem c9_persisted_override (env : Env) (s : AppState)
    (persisted : List (String × String)) (k v k' : String)
    (hpl : ((lookupMeta env.meta (env.imageKey s.idx)).getD
      {}).pen_labels = some persisted)
    (hnd : (persisted.map Prod.fst).Nodup)
    (hmem : (k, v) ∈ persisted)
    (hkey : k ∈ penKeys)
    (hnot : ∀ kv ∈ persisted, (kv.1 == k') = false) :
    (loadImage env s).penVars.find? (fun e => e.1 == k) = some (k, v) ∧
    (loadImage env s).penVars.find? (fun e => e.1 == k')
      = (updatePenLabels (loadImage env s).defectVars).find?
          (fun e => e.1 == k') := by
  have hpv : (loadImage env s).penVars
      = applyPersisted (updatePenLabels ((loadImage env s).defectVars))
          ((((lookupMeta env.meta (env.imageKey s.idx)).getD
            {}).pen_labels).getD []) := rfl
  rw [hpv, hpl, Option.getD_some]
  constructor
  · apply find?_applyPersisted_mem persisted _ k v hnd hmem
    apply isSome_find?_of_key_mem
    rw [keys_updatePenLabels]
    exact hkey
  · exact find?_applyPersisted_not_mem persisted _ k' hnot

/-- A one-image environment whose metadata carries a persisted
`pen_labels` override for `pen2`. -/
def c9Env : Env :=
  { defects := ["chip", "scratch"], imageCount := 1,
    imageKey := fun _ => "img.png", folderOf := fun _ => "tray1_a",
    loadedLayer := fun _ => [], penToColor := fun _ => (255, 0, 0, 255),
    meta := [("img.png",
      { pen_labels := some [("pen2", "CustomLabel")],
        defects := some ["chip"] })] }

/-- Claim C9, witness: loading under `c9Env` leaves `pen2` bound to
the persisted `"CustomLabel"` (not to anything the derivation would
produce) and `pen1` bound to its derived label. -/
theorem c9_persisted_override_witness :
    (loadImage c9Env baseState).penVars.find? (fun e => e.1 == "pen2")
      = some ("pen2", "CustomLabel") ∧
    (loadImage c9Env baseState).penVars.find? (fun e => e.1 == "pen1")
      = (updatePenLabels (loadImage c9Env baseState).defectVars).find?
          (fun e => e.1 == "pen1") :=
  c9_persisted_override c9Env baseState [("pen2", "CustomLabel")]
    "pen2" "CustomLabel" "pen1" (by decide) (by decide) (by decide)
    (by decide) (by decide)

/-! ## Claim C10: the frame of `clear_all` -/

/-! ## Claim C1: per-category mask extraction -/

lemma pixelAt_extractMask (penLabels : List (String × String))
    (penToColor : String → RGB) (defect : String)
    (layer : List (List RGBA)) (x y : Nat) :
    pixelAt (extractMask penLabels penToColor defect layer) x y
      = (pixelAt layer x y).map
          (maskPixel (matchingColors penLabels penToColor defect)) := by
  simp only [pixelAt, extractMask, List.get?_eq_getElem?, List.getElem?_map]
  cases layer[y]? with
  | none => rfl
  | some row => simp [List.get?_eq_getElem?, List.getElem?_map]

/-- Claim C1, counterexample: the claim asserts that a non-zero-alpha
pixel within tolerance of a pen bound to the category is copied with
the pixel's own RGB; the code (line 790, `dst[x, y] = (pr, pg, pb, a)`)
writes the pen's RGB instead.  The pixel `(250, 5, 5, 200)` is within
tolerance 10 of the pen color `(255, 0, 0)` bound to `"chip"`, yet the
mask does not hold `(250, 5, 5, 200)` there. -/
theorem c1_counterexample :
    colorMatches 250 5 5 (255, 0, 0) = true ∧
    matchingColors [("pen1", "chip")] (fun _ => (255, 0, 0)) "chip"
      = [(255, 0, 0)] ∧
    pixelAt (extractMask [("pen1", "chip")] (fun _ => (255, 0, 0)) "chip"
        [[(250, 5, 5, 200)]]) 0 0 ≠ some (250, 5, 5, 200) := by
  refine ⟨by decide, by decide, ?_⟩
  decide

/-- Claim C1, amended: for every overlay pixel, the category mask holds
`(0,0,0,0)` when the pixel's alpha is zero; otherwise, if some bound
pen (label equal to the category, case-insensitive and trimmed)
matches all three RGB channels within the inclusive tolerance 10, the
mask holds the FIRST matching pen's RGB together with the pixel's own
alpha (checking stops at the first match); and a pixel matching no
bound pen stays `(0,0,0,0)` in every category mask. -/
theorem c1_pen_color_mask (penLabels : List (String × String))
    (penToColor : String → RGB) (defect : String)
    (layer : List (List RGBA)) (x y : Nat) (r g b a : Nat)
    (hpx : pixelAt layer x y = some (r, g, b, a)) :
    (a = 0 →
      pixelAt (extractMask penLabels penToColor defect layer) x y
        = some (0, 0, 0, 0)) ∧
    (∀ pr pg pb, a ≠ 0 →
      (matchingColors penLabels penToColor defect).find?
          (fun pc => colorMatches r g b pc) = some (pr, pg, pb) →
      pixelAt (extractMask penLabels penToColor defect layer) x y
        = some (pr, pg, pb, a)) ∧
    ((matchingColors penLabels penToColor defect).find?
        (fun pc => colorMatches r g b pc) = none →
      pixelAt (extractMask penLabels penToColor defect layer) x y
        = some (0, 0, 0, 0)) := by
  rw [pixelAt_extractMask, hpx]
  refine ⟨?_, ?_, ?_⟩
  · intro ha
    simp [maskPixel, ha]
  · intro pr pg pb ha hfind
    simp [maskPixel, ha, hfind]
  · intro hfind
    simp [maskPixel, hfind]

/-- Claim C1, witness: the pixel `(250, 5, 5, 200)` against the single
pen `"pen1"` of color `(255, 0, 0)` labelled `"chip"` lands in the
`"chip"` mask as `(255, 0, 0, 200)`. -/
theorem c1_pen_color_mask_witness :
    pixelAt (extractMask [("pen1", "chip")] (fun _ => (255, 0, 0)) "chip"
        [[(250, 5, 5, 200)]]) 0 0 = some (255, 0, 0, 200) :=
  (c1_pen_color_mask [("pen1", "chip")] (fun _ => (255, 0, 0)) "chip"
      [[(250, 5, 5, 200)]] 0 0 250 5 5 200 (by decide)).2.1
    255 0 0 (by decide) (by decide)

/-! ## Claim C4: fill mode and the command wiring -/

lemma runCommand_fillVar (env : Env) (a : Action) (s : AppState) :
    (runCommand env a s).fillVar = s.fillVar := by
  cases a with
  | prev => rfl
  | next => rfl
  | clear => rfl
  | undo =>
    rw [runCommand, undo]
    split
    · split
      · rfl
      · rfl
    · rfl
  | redo =>
    rw [runCommand, redo]
    split
    · rfl
    · rfl
  | modeDraw => rfl
  | modeErase => rfl
  | save now => rfl
  | zoomOut => rfl
  | zoomIn => rfl
  | usePen k => rfl
  | exportXlsx => rfl
  | exportCsv => rfl

/-- Claim C4, counterexample: the claim exempts the draw and erase
mode toggles from the fill-mode clearing, but the Draw button is wired
through `_wrap_cmd` like every other button (lines 292-298): pressing
it with fill mode active clears fill mode. -/
theorem c4_counterexample :
    { baseState with fillVar := true }.fillVar = true ∧
    (dispatch baseEnv Action.modeDraw
      { baseState with fillVar := true }).fillVar = false :=
  ⟨rfl, rfl⟩

/-- Claim C4, amended: every command/navigation action — prev, next,
clear, undo, redo, save, zoom, pen selection, exports, and also the
draw and erase mode toggles — force-clears the fill-mode flag before
executing, and no command sets it back. -/
theorem c4_fill_cleared (env : Env) (a : Action) (s : AppState) :
    (dispatch env a s).fillVar = false := by
  rw [dispatch, wrapCmd, runCommand_fillVar]

/-! ## Claim C7: undo followed by redo -/

/-- Claim C7, counterexample: the claim quantifies over every state
whose history holds more than one entry; in a state whose overlay
differs from the history top (as after an erase gesture, which
`_on_left_release` never commits), undo-then-redo restores the history
top, not the pre-undo overlay. -/
theorem c7_counterexample :
    1 < ({ baseState with
            layer := [DrawOp.line 0 0 1 1 (0, 0, 0, 0) 20],
            history := [[], []] } : AppState).history.length ∧
    (redo (undo { baseState with
            layer := [DrawOp.line 0 0 1 1 (0, 0, 0, 0) 20],
            history := [[], []] })).layer ≠
      ({ baseState with
            layer := [DrawOp.line 0 0 1 1 (0, 0, 0, 0) 20],
            history := [[], []] } : AppState).layer := by
  constructor
  · decide
  · decide

/-- Claim C7, amended: whenever the history holds more than one entry
and the overlay equals the history top (as it does immediately after
any committed mutation), undo followed by redo restores the overlay,
the full history stack — its top in particular — and the redo stack to
their pre-undo content, bit for bit. -/
theorem c7_undo_redo (s : AppState) (hlen : 1 < s.history.length)
    (hinv : s.history.getLast? = some s.layer) :
    (redo (undo s)).layer = s.layer ∧
    (redo (undo s)).history = s.history ∧
    (redo (undo s)).redoStack = s.redoStack := by
  have h1 : undo s =
      { s with redoStack := s.redoStack ++ [s.layer],
               history := s.history.dropLast,
               layer := (s.history.dropLast.getLast?).getD [] } := by
    rw [undo, if_pos hlen, hinv]
  have h2 : ((
      { s with redoStack := s.redoStack ++ [s.layer],
               history := s.history.dropLast,
               layer := (s.history.dropLast.getLast?).getD [] }
        : AppState).redoStack.getLast?) = some s.layer :=
    getLast?_append_singleton s.redoStack s.layer
  rw [h1, redo, h2]
  refine ⟨rfl, ?_, ?_⟩
  · exact dropLast_append_of_getLast? s.history s.layer hinv
  · exact dropLast_append_singleton s.redoStack s.layer

/-- Claim C7, witness: a state with two history entries whose overlay
equals the top. -/
theorem c7_undo_redo_witness :
    (redo (undo { baseState with
        history := [[DrawOp.fill 0 0 (255, 0, 0, 255)], []] })).layer
      = ({ baseState with
        history := [[DrawOp.fill 0 0 (255, 0, 0, 255)], []] }
          : AppState).layer ∧
    (redo (undo { baseState with
        history := [[DrawOp.fill 0 0 (255, 0, 0, 255)], []] })).history
      = ({ baseState with
        history := [[DrawOp.fill 0 0 (255, 0, 0, 255)], []] }
          : AppState).history ∧
    (redo (undo { baseState with
        history := [[DrawOp.fill 0 0 (255, 0, 0, 255)], []] })).redoStack
      = ({ baseState with
        history := [[DrawOp.fill 0 0 (255, 0, 0, 255)], []] }
          : AppState).redoStack :=
  c7_undo_redo _ (by decide) (by decide)

/-- Claim C10: `clear_all` blanks the overlay, resets the history to
that single blank entry, empties the redo stack, the note, the
inspector name, every defect selection and every pen label (keeping
the key sets), and sets the one-shot continuity-suppression flag. -/
theorem c10_clear_all (s : AppState) :
    (clearAll s).layer = [] ∧
    (clearAll s).history = [[]] ∧
    (clearAll s).redoStack = [] ∧
    (clearAll s).noteText = "" ∧
    (clearAll s).inspectorVar = "" ∧
    (clearAll s).defectVars = s.defectVars.map (fun kv => (kv.1, false)) ∧
    (clearAll s).penVars = s.penVars.map (fun kv => (kv.1, "")) ∧
    (clearAll s).unsavedClear = true :=
  ⟨rfl, rfl, rfl, rfl, rfl, rfl, rfl, rfl⟩

end DrawApp
